import Mathlib

/-!
Shallow embedding of the comparison / summarization core of the
ai-sentiment-scanner repository, together with proofs of the behavioural
claims about it.

Conventions used throughout:
* Python strings are modelled as `List Char` where character-level
  operations (slicing, lowercasing, substring tests) matter, and as
  `String` where the text only flows through opaquely.
* Python floats are modelled as `ℚ`; a possibly-NaN float (the result of
  a pandas mean over a possibly-empty column) is modelled as `Option ℚ`
  with `none` playing the role of NaN.
* A Python function that may raise is modelled as returning
  `Except String α`, the error string standing for the raised exception.
* External collaborators (the sklearn topic extractor, the OpenAI text
  generation call) are passed in as function parameters, mirroring the
  spec, which treats them as external dependencies with narrow
  interfaces.
-/

namespace AISentimentScanner

/-! ## Python dict / list primitives -/

/-- Lookup in a Python dict built with `dict(pairs)`: a later binding of the
same key shadows an earlier one, so the last binding wins. -/
def pyGet (l : List (String × ℚ)) (k : String) : Option ℚ :=
  (l.reverse.find? (fun p => p.1 = k)).map (·.2)

/-- Result of `d.get(k, 0)` on a Python dict built from the pair list `l`. -/
def pyGetD (l : List (String × ℚ)) (k : String) : ℚ :=
  (pyGet l k).getD 0

/-- Key view of a Python dict built from the pair list `l`: each key once. -/
def pyKeys (l : List (String × ℚ)) : List String :=
  (l.map (·.1)).dedup

/-- Union of two key sets, as in Python `set(d1.keys()) | set(d2.keys())`.
Set iteration order is unspecified in Python; the union is modelled as a
left-to-right deduplicated list and all theorems speak only of membership. -/
def keyUnion (l1 l2 : List (String × ℚ)) : List String :=
  (pyKeys l1 ++ pyKeys l2).dedup

/-- Python `sum(xs) / len(xs) if xs else 0`. -/
def listMean0 (l : List ℚ) : ℚ :=
  if l = [] then 0 else l.sum / l.length

/-- A pandas `Series.mean()` over a numeric column: `none` models the NaN
produced on an empty column. -/
def pmean (l : List ℚ) : Option ℚ :=
  if l = [] then none else some (l.sum / l.length)

/-- Subtraction of possibly-NaN floats: NaN propagates. -/
def omSub (b a : Option ℚ) : Option ℚ :=
  match b, a with
  | some x, some y => some (x - y)
  | _, _ => none

/-- Python `str.lower()` (ASCII-faithful). -/
def lowerChars (t : List Char) : List Char := t.map Char.toLower

/-- Python substring test `pat in s`. -/
def hasSub (pat : List Char) : List Char → Bool
  | [] => pat.isEmpty
  | c :: rest => pat.isPrefixOf (c :: rest) || hasSub pat rest

/-! ## core/topic_analyzer.py - tag_reviews_by_theme

The fixed theme vocabulary of `tag_reviews_by_theme`.  The function also
builds a TF-IDF matrix whose result is dead code (never read afterwards);
only the keyword scoring that produces the returned value is embedded.
Note the limit of this embedding: although its result is unused, the
`fit_transform` call can still raise on a degenerate corpus (empty, or
all stop words), and the embedding below is total instead.  This is sound
for every property proved here: the score-bound theorem speaks only of
maps the function returns (totalizing only enlarges that set), and the
comparison-engine theorems either condition on a successful run or
concern failure paths that the code reaches before this function is
called (`extract_topics` runs first on the same text lists). -/

/-- Keyword table of `tag_reviews_by_theme` (insertion order of the Python
dict literal preserved). -/
def themesTable : List (String × List String) :=
  [ ("UX", ["interface", "design", "layout", "user experience", "ui", "navigation", "menu"]),
    ("Performance", ["slow", "lag", "crash", "freeze", "speed", "performance", "battery"]),
    ("Features", ["feature", "function", "option", "capability", "tool"]),
    ("Bugs", ["bug", "error", "issue", "problem", "glitch", "not working"]),
    ("Content", ["content", "information", "data", "update", "news"]),
    ("Support", ["support", "help", "customer service", "response", "contact"]) ]

/-- The fixed six theme names, in the order `compare_versions` iterates them. -/
def themeNames : List String :=
  ["UX", "Performance", "Features", "Bugs", "Content", "Support"]

/-- Score of one theme on one review text:
`sum(1 for keyword in keywords if keyword in text.lower()) / len(keywords)`. -/
def themeScore (keywords : List String) (text : List Char) : ℚ :=
  (keywords.countP (fun k => hasSub k.data (lowerChars text)) : ℚ) / (keywords.length : ℚ)

/-- Embedding of `tag_reviews_by_theme`: one theme-score dict per input text. -/
def tag_reviews_by_theme (texts : List (List Char)) : List (List (String × ℚ)) :=
  texts.map (fun t => themesTable.map (fun p => (p.1, themeScore p.2 t)))

/-! ## core/version_analyzer.py - extract_version_from_review

The four regex patterns are embedded as position matchers (match the
pattern at the head of a suffix) combined with a leftmost scan, which is
what `re.search` does.  For these patterns greedy matching never needs to
backtrack inside `\d+` or `\s+` runs (a shorter run would put a digit or a
space where the next literal is required), so each matcher consumes
maximal runs; the one real backtracking point, the optional third dotted
segment when the pattern continues with `\s+version`, is tried explicitly
in `matchNumVersionAt`. -/

/-- Python regex `\s` on ASCII text. -/
def isPySpace (c : Char) : Bool :=
  c = ' ' || c = '\t' || c = '\n' || c = '\x0d' || c = '\x0b' || c = '\x0c'

/-- Greedy parse of `\d+\.\d+` at the head of `s`; returns the capture and
the rest of the input. -/
def matchNumTwo (s : List Char) : Option (List Char × List Char) :=
  let d1 := s.takeWhile Char.isDigit
  let r1 := s.dropWhile Char.isDigit
  if d1 = [] then none else
  match r1 with
  | '.' :: r2 =>
    let d2 := r2.takeWhile Char.isDigit
    let r3 := r2.dropWhile Char.isDigit
    if d2 = [] then none else some (d1 ++ '.' :: d2, r3)
  | _ => none

/-- Greedy parse of `\d+\.\d+(?:\.\d+)?` at the head of `s`: the optional
third segment is taken whenever it is present. -/
def matchNumFull (s : List Char) : Option (List Char × List Char) :=
  match matchNumTwo s with
  | none => none
  | some (cap, rest) =>
    match rest with
    | '.' :: r2 =>
      let d3 := r2.takeWhile Char.isDigit
      let r3 := r2.dropWhile Char.isDigit
      if d3 = [] then some (cap, rest) else some (cap ++ '.' :: d3, r3)
    | _ => some (cap, rest)

/-- Literal-word prefix followed by `\s+`, returning the rest of the input
after the whitespace run, or `none` if the word or the whitespace is
missing. -/
def afterWordSpace (word : List Char) (s : List Char) : Option (List Char) :=
  if word.isPrefixOf s then
    let r := s.drop word.length
    let ws := r.takeWhile isPySpace
    if ws = [] then none else some (r.dropWhile isPySpace)
  else none

/-- Matcher for `version\s+(\d+\.\d+(?:\.\d+)?)` at one position. -/
def matchVersionAt (s : List Char) : Option (List Char) :=
  match afterWordSpace "version".data s with
  | none => none
  | some r => (matchNumFull r).map (·.1)

/-- Matcher for `v(\d+\.\d+(?:\.\d+)?)` at one position. -/
def matchVAt (s : List Char) : Option (List Char) :=
  match s with
  | 'v' :: r => (matchNumFull r).map (·.1)
  | _ => none

/-- Test for `\s+version` at the head of `s`. -/
def wsThenVersion (s : List Char) : Bool :=
  let ws := s.takeWhile isPySpace
  ws ≠ [] && ("version".data.isPrefixOf (s.dropWhile isPySpace))

/-- Matcher for `(\d+\.\d+(?:\.\d+)?)\s+version` at one position: the greedy
three-segment capture is tried first, then the regex engine backtracks the
optional group to a two-segment capture. -/
def matchNumVersionAt (s : List Char) : Option (List Char) :=
  match matchNumFull s with
  | none => none
  | some (cap, rest) =>
    if wsThenVersion rest then some cap
    else
      match matchNumTwo s with
      | some (cap2, rest2) => if wsThenVersion rest2 then some cap2 else none
      | none => none

/-- Matcher for `update\s+(\d+\.\d+(?:\.\d+)?)` at one position. -/
def matchUpdateAt (s : List Char) : Option (List Char) :=
  match afterWordSpace "update".data s with
  | none => none
  | some r => (matchNumFull r).map (·.1)

/-- Leftmost scan of `re.search`: try the position matcher at every suffix,
left to right (the empty suffix included). -/
def reSearch (m : List Char → Option (List Char)) : List Char → Option (List Char)
  | [] => m []
  | c :: rest =>
    match m (c :: rest) with
    | some v => some v
    | none => reSearch m rest

/-- The ordered pattern list of `extract_version_from_review`. -/
def versionPatterns : List (List Char → Option (List Char)) :=
  [matchVersionAt, matchVAt, matchNumVersionAt, matchUpdateAt]

/-- The never-matching matcher, used as the out-of-range default when the
pattern list is indexed. -/
def noMatch : List Char → Option (List Char) := fun _ => none

/-- Embedding of `extract_version_from_review`: each pattern is searched in
the lowercased text in priority order; the first pattern that matches
anywhere wins and its capture group is returned. -/
def extract_version_from_review (text : List Char) : Option (List Char) :=
  let lt := lowerChars text
  match reSearch matchVersionAt lt with
  | some v => some v
  | none =>
    match reSearch matchVAt lt with
    | some v => some v
    | none =>
      match reSearch matchNumVersionAt lt with
      | some v => some v
      | none => reSearch matchUpdateAt lt

/-! ## core/version_analyzer.py - data model and grouping -/

/-- One normalized review row, restricted to the columns
`compare_versions` and `group_reviews_by_version` read. -/
structure Review where
  text : List Char
  sentiment : ℚ
  rating : ℚ
  deriving DecidableEq, Repr

/-- Embedding of `group_reviews_by_version`: rows whose text yields no
version (pandas drops the `None` group and the `if version:` guard skips
falsy keys) appear in no group.  The pandas group order (sorted keys) is
irrelevant to the claims, which speak of membership only. -/
def group_reviews_by_version (reviews : List Review) : List (List Char × List Review) :=
  ((reviews.filterMap (fun r => extract_version_from_review r.text)).dedup).map
    (fun v => (v, reviews.filter (fun r => extract_version_from_review r.text == some v)))

/-! ## core/version_analyzer.py - compare_versions

`compare_versions` calls `extract_topics`, an sklearn TF-IDF/KMeans
routine that the spec classifies as an external collaborator; it is
therefore a parameter here, of type
`List (List Char) → Except String (List (String × ℚ))`: a corpus goes to
an ordered (label, frequency) list, or to a raised exception (sklearn
raises for instance on an empty corpus or on fewer documents than
clusters).  `tag_reviews_by_theme` is repository code and the embedding
above is used directly. -/

/-- One `{version1, version2, delta}` cell of the comparison payload. -/
structure Entry (α : Type) where
  version1 : α
  version2 : α
  delta : α
  deriving DecidableEq, Repr

/-- The comparison payload returned by `compare_versions`. -/
structure Comparison where
  sentiment : Entry (Option ℚ)
  topics : List (String × Entry ℚ)
  themes : List (String × Entry ℚ)
  review_count : Entry ℤ
  average_rating : Entry (Option ℚ)
  deriving DecidableEq, Repr

/-- Per-theme population averages of `compare_versions`:
`sum(scores)/len(scores) if scores else 0` over the fixed theme list. -/
def themeAvgs (tagged : List (List (String × ℚ))) : List (String × ℚ) :=
  themeNames.map (fun th => (th, listMean0 (tagged.map (fun m => pyGetD m th))))

/-- Embedding of `compare_versions`.  Sentiment means are computed first
(pandas yields NaN on an empty column, modelled as `none`), then the topic
extractor runs on each population's texts - an exception there propagates
out of the function - and finally topics, themes and metrics are
assembled.  All deltas are the version2 value minus the version1 value. -/
def compare_versions
    (extractTopics : List (List Char) → Except String (List (String × ℚ)))
    (version1 version2 : List Review) : Except String Comparison :=
  let s1 := pmean (version1.map (·.sentiment))
  let s2 := pmean (version2.map (·.sentiment))
  match extractTopics (version1.map (·.text)) with
  | Except.error e => Except.error e
  | Except.ok raw1 =>
    match extractTopics (version2.map (·.text)) with
    | Except.error e => Except.error e
    | Except.ok raw2 =>
      let topicChanges :=
        (keyUnion raw1 raw2).map (fun t =>
          (t, Entry.mk (pyGetD raw1 t) (pyGetD raw2 t) (pyGetD raw2 t - pyGetD raw1 t)))
      let avgs1 := themeAvgs (tag_reviews_by_theme (version1.map (·.text)))
      let avgs2 := themeAvgs (tag_reviews_by_theme (version2.map (·.text)))
      let themeChanges :=
        avgs1.map (fun p =>
          (p.1, Entry.mk p.2 (pyGetD avgs2 p.1) (pyGetD avgs2 p.1 - p.2)))
      let r1 := pmean (version1.map (·.rating))
      let r2 := pmean (version2.map (·.rating))
      Except.ok
        { sentiment := Entry.mk s1 s2 (omSub s2 s1)
          topics := topicChanges
          themes := themeChanges
          review_count := Entry.mk (version1.length : ℤ) (version2.length : ℤ)
            ((version2.length : ℤ) - (version1.length : ℤ))
          average_rating := Entry.mk r1 r2 (omSub r2 r1) }

/-! ## core/summarizer.py - input builder of summarize_themes

Only the local text-processing stage of `summarize_themes` is claim
relevant; what follows the builder is a delegation to the external
text-generation collaborator. -/

/-- The `MAX_REVIEW_LENGTH` constant of `summarize_themes`. -/
def MAX_REVIEW_LENGTH : ℕ := 1000

/-- The `MAX_TOTAL_LENGTH` constant of `summarize_themes`. -/
def MAX_TOTAL_LENGTH : ℕ := 20000

/-- Per-text truncation of `summarize_themes`:
`text[:1000] + "..."` when the text is longer than 1000 characters. -/
def truncateReview (t : List Char) : List Char :=
  if MAX_REVIEW_LENGTH < t.length then t.take MAX_REVIEW_LENGTH ++ "...".data else t

/-- The accumulation loop of `summarize_themes`: each text is truncated,
then dropped together with the whole remainder as soon as
`total_length + len(text) + 2 > MAX_TOTAL_LENGTH` (the `+ 2` budgets the
blank-line separator), otherwise appended while the running total grows by
`len(text) + 2`. -/
def buildLoop (total : ℕ) : List (List Char) → List (List Char)
  | [] => []
  | t :: ts =>
    let t2 := truncateReview t
    if MAX_TOTAL_LENGTH < total + t2.length + 2 then []
    else t2 :: buildLoop (total + t2.length + 2) ts

/-- The `processed_texts` list of `summarize_themes`. -/
def processedTexts (texts : List (List Char)) : List (List Char) :=
  buildLoop 0 texts

/-- The `combined_text` of `summarize_themes`: the processed texts joined
with a blank line, `"\n\n".join(processed_texts)`. -/
def combinedText (texts : List (List Char)) : List Char :=
  List.intercalate "\n\n".data (processedTexts texts)

/-! ## core/summarizer.py - analyze_period_changes

The period payloads consumed here map metric, topic and theme names
directly to numbers (they are built by the period-comparison page, not by
`compare_versions`).  The OpenAI call is the external text-generation
collaborator: a parameter taking the system role, the prompt, the token
budget and the temperature, and returning the generated text or a raised
exception. -/

/-- Input payload shape of `analyze_period_changes`. -/
structure PeriodData where
  metrics : List (String × ℚ)
  topics : List (String × ℚ)
  themes : List (String × ℚ)
  deriving Repr

/-- Rounding to an integer, ties to even, used to model fixed-point
display formatting of `{:.2f}`-style Python format specifiers (Python
formats binary doubles; over `ℚ` the half-even rule is the exact
idealization). -/
def roundHE (x : ℚ) : ℤ :=
  let f := Rat.floor x
  let r := x - f
  if r < 1/2 then f else if 1/2 < r then f + 1 else if f % 2 = 0 then f else f + 1

/-- Zero-padding of a digit string to width `d`. -/
def padZeros (d : ℕ) (s : String) : String :=
  String.mk (List.replicate (d - s.length) '0') ++ s

/-- Fixed-point rendering of a non-negative rational with `d` decimals. -/
def fmtFixedNN (d : ℕ) (x : ℚ) : String :=
  let n := (roundHE (x * ((10 : ℚ) ^ d))).toNat
  if d = 0 then toString n
  else toString (n / 10 ^ d) ++ "." ++ padZeros d (toString (n % 10 ^ d))

/-- Fixed-point format with d decimals, Python format spec .df. -/
def fmtFixed (d : ℕ) (x : ℚ) : String :=
  if x < 0 then "-" ++ fmtFixedNN d (-x) else fmtFixedNN d x

/-- Fixed-point format with d decimals and an explicit sign, Python format spec +.df. -/
def fmtSigned (d : ℕ) (x : ℚ) : String :=
  if x < 0 then "-" ++ fmtFixedNN d (-x) else "+" ++ fmtFixedNN d x

/-- Percent format with one decimal, Python format spec .1%. -/
def fmtPct (x : ℚ) : String := fmtFixed 1 (x * 100) ++ "%"

/-- Signed percent format with one decimal, Python format spec +.1%. -/
def fmtPctSigned (x : ℚ) : String := fmtSigned 1 (x * 100) ++ "%"

/-- The `metrics_changes` lines: one line per metric of period 1 that also
exists in period 2, with the delta computed as period2 minus period1. -/
def metricsChanges (p1 p2 : PeriodData) : List String :=
  p1.metrics.filterMap (fun mv =>
    match pyGet p2.metrics mv.1 with
    | none => none
    | some w => some (mv.1 ++ ": " ++ fmtFixed 2 mv.2 ++ " → " ++ fmtFixed 2 w ++
        " (Δ: " ++ fmtSigned 2 (w - mv.2) ++ ")"))

/-- The `topic_changes` lines: shared topics whose delta exceeds 0.05 in
absolute value. -/
def topicChangeLines (p1 p2 : PeriodData) : List String :=
  p1.topics.filterMap (fun mv =>
    match pyGet p2.topics mv.1 with
    | none => none
    | some w =>
      if 1/20 < |w - mv.2| then
        some (mv.1 ++ ": " ++ fmtPct mv.2 ++ " → " ++ fmtPct w ++
          " (Δ: " ++ fmtPctSigned (w - mv.2) ++ ")")
      else none)

/-- The `theme_changes` lines: shared themes whose delta exceeds 0.1 in
absolute value. -/
def themeChangeLines (p1 p2 : PeriodData) : List String :=
  p1.themes.filterMap (fun mv =>
    match pyGet p2.themes mv.1 with
    | none => none
    | some w =>
      if 1/10 < |w - mv.2| then
        some (mv.1 ++ ": " ++ fmtFixed 2 mv.2 ++ " → " ++ fmtFixed 2 w ++
          " (Δ: " ++ fmtSigned 2 (w - mv.2) ++ ")")
      else none)

/-- The prompt f-string of `analyze_period_changes`. -/
def periodChangesPrompt (p1 p2 : PeriodData) (n1 n2 : String) : String :=
  "Analyze the changes between " ++ n1 ++ " and " ++ n2 ++
  " for this app\x27s reviews.\n\nKey Metrics Changes:\n" ++
  String.intercalate "\n" (metricsChanges p1 p2) ++
  "\n\nSignificant Topic Changes:\n" ++
  String.intercalate "\n" (topicChangeLines p1 p2) ++
  "\n\nTheme Changes:\n" ++
  String.intercalate "\n" (themeChangeLines p1 p2) ++
  "\n\nPlease provide a comprehensive analysis that:\n" ++
  "1. Highlights the most significant changes and their implications\n" ++
  "2. Identifies emerging trends or issues\n" ++
  "3. Suggests potential areas for improvement\n" ++
  "4. Explains the impact of these changes on user satisfaction\n" ++
  "5. Provides actionable insights for the development team\n\n" ++
  "Format the response in clear sections with bullet points for easy reading."

/-- The system-role message of the `analyze_period_changes` OpenAI call. -/
def periodChangesRole : String :=
  "You are an expert app analytics specialist who excels at identifying meaningful patterns and changes in user feedback."

/-- Embedding of `analyze_period_changes`.  The whole body sits inside a
try/except whose handler returns an error-message string, so a collaborator
failure is caught and converted into an ordinary return value; the
function itself never raises. -/
def analyze_period_changes
    (gen : String → String → ℕ → ℚ → Except String String)
    (p1 p2 : PeriodData) (n1 n2 : String) (maxTokens : ℕ) : Except String String :=
  match gen periodChangesRole (periodChangesPrompt p1 p2 n1 n2) maxTokens (7/10) with
  | Except.ok s => Except.ok s
  | Except.error e => Except.ok ("Error generating period comparison analysis: " ++ e)

/-! ## MD5 (hashlib.md5), used by core/utils.py cache_key

Reference implementation of MD5 over byte lists, with 32-bit words as
naturals reduced modulo 2^32. -/

/-- The 64 MD5 round constants, `floor(abs(sin(i+1)) * 2^32)`. -/
def md5K : List ℕ :=
  [0xd76aa478, 0xe8c7b756, 0x242070db, 0xc1bdceee,
   0xf57c0faf, 0x4787c62a, 0xa8304613, 0xfd469501,
   0x698098d8, 0x8b44f7af, 0xffff5bb1, 0x895cd7be,
   0x6b901122, 0xfd987193, 0xa679438e, 0x49b40821,
   0xf61e2562, 0xc040b340, 0x265e5a51, 0xe9b6c7aa,
   0xd62f105d, 0x02441453, 0xd8a1e681, 0xe7d3fbc8,
   0x21e1cde6, 0xc33707d6, 0xf4d50d87, 0x455a14ed,
   0xa9e3e905, 0xfcefa3f8, 0x676f02d9, 0x8d2a4c8a,
   0xfffa3942, 0x8771f681, 0x6d9d6122, 0xfde5380c,
   0xa4beea44, 0x4bdecfa9, 0xf6bb4b60, 0xbebfbc70,
   0x289b7ec6, 0xeaa127fa, 0xd4ef3085, 0x04881d05,
   0xd9d4d039, 0xe6db99e5, 0x1fa27cf8, 0xc4ac5665,
   0xf4292244, 0x432aff97, 0xab9423a7, 0xfc93a039,
   0x655b59c3, 0x8f0ccc92, 0xffeff47d, 0x85845dd1,
   0x6fa87e4f, 0xfe2ce6e0, 0xa3014314, 0x4e0811a1,
   0xf7537e82, 0xbd3af235, 0x2ad7d2bb, 0xeb86d391]

/-- The 64 MD5 per-round left-rotation amounts. -/
def md5S : List ℕ :=
  [7, 12, 17, 22, 7, 12, 17, 22, 7, 12, 17, 22, 7, 12, 17, 22,
   5, 9, 14, 20, 5, 9, 14, 20, 5, 9, 14, 20, 5, 9, 14, 20,
   4, 11, 16, 23, 4, 11, 16, 23, 4, 11, 16, 23, 4, 11, 16, 23,
   6, 10, 15, 21, 6, 10, 15, 21, 6, 10, 15, 21, 6, 10, 15, 21]

/-- Bitwise complement on a 32-bit word. -/
def not32 (a : ℕ) : ℕ := a ^^^ 0xffffffff

/-- Left rotation of a 32-bit word. -/
def rotl32 (x s : ℕ) : ℕ := ((x <<< s) ||| (x >>> (32 - s))) % 4294967296

/-- Little-endian byte quadruples to 32-bit words. -/
def leWords : List ℕ → List ℕ
  | b0 :: b1 :: b2 :: b3 :: rest =>
    (b0 + 256 * b1 + 65536 * b2 + 16777216 * b3) :: leWords rest
  | _ => []

/-- A natural as `k` little-endian bytes. -/
def leBytes : ℕ → ℕ → List ℕ
  | 0, _ => []
  | k + 1, n => n % 256 :: leBytes k (n / 256)

/-- MD5 padding: a 0x80 byte, zeros to 56 mod 64, then the bit length as a
64-bit little-endian quantity. -/
def md5Pad (msg : List ℕ) : List ℕ :=
  let zeros := (64 + 55 - msg.length % 64) % 64
  msg ++ 0x80 :: List.replicate zeros 0 ++
    leBytes 8 ((msg.length * 8) % 18446744073709551616)

/-- Split a byte list into 64-byte chunks; the first argument is
structural-recursion fuel (one unit per chunk, so the list length is
always enough). -/
def toChunksAux : ℕ → List ℕ → List (List ℕ)
  | 0, _ => []
  | _ + 1, [] => []
  | n + 1, b :: rest => (b :: rest).take 64 :: toChunksAux n ((b :: rest).drop 64)

/-- Split a padded message into 64-byte chunks. -/
def toChunks (l : List ℕ) : List (List ℕ) := toChunksAux l.length l

/-- Round mixing function and message index of MD5 round `i`. -/
def md5F (i b c d : ℕ) : ℕ × ℕ :=
  if i < 16 then ((b &&& c) ||| (not32 b &&& d), i)
  else if i < 32 then ((d &&& b) ||| (not32 d &&& c), (5 * i + 1) % 16)
  else if i < 48 then (b ^^^ c ^^^ d, (3 * i + 5) % 16)
  else (c ^^^ (b ||| not32 d), (7 * i) % 16)

/-- One MD5 round on the register quadruple. -/
def md5Round (M : List ℕ) (st : ℕ × ℕ × ℕ × ℕ) (i : ℕ) : ℕ × ℕ × ℕ × ℕ :=
  let (a, b, c, d) := st
  let (f, g) := md5F i b c d
  let t := (f + a + md5K.getD i 0 + M.getD g 0) % 4294967296
  (d, (b + rotl32 t (md5S.getD i 0)) % 4294967296, b, c)

/-- One 64-byte chunk folded into the running register state. -/
def md5Chunk (st : ℕ × ℕ × ℕ × ℕ) (chunk : List ℕ) : ℕ × ℕ × ℕ × ℕ :=
  let M := leWords chunk
  let (a, b, c, d) := (List.range 64).foldl (md5Round M) st
  let (a0, b0, c0, d0) := st
  ((a0 + a) % 4294967296, (b0 + b) % 4294967296,
   (c0 + c) % 4294967296, (d0 + d) % 4294967296)

/-- The 16 MD5 digest bytes of a byte-list message. -/
def md5Bytes (msg : List ℕ) : List ℕ :=
  let st := (toChunks (md5Pad msg)).foldl md5Chunk
    (0x67452301, 0xefcdab89, 0x98badcfe, 0x10325476)
  let (a, b, c, d) := st
  leBytes 4 a ++ leBytes 4 b ++ leBytes 4 c ++ leBytes 4 d

/-- Lowercase hex digit. -/
def hexChar (n : ℕ) : Char :=
  if n < 10 then Char.ofNat (48 + n) else Char.ofNat (87 + n)

/-- Lowercase hex rendering of one byte. -/
def byteHex (b : ℕ) : List Char := [hexChar (b / 16), hexChar (b % 16)]

/-- Python `hashlib.md5(x).hexdigest()` over a byte list. -/
def md5Hex (msg : List ℕ) : String :=
  String.mk (((md5Bytes msg).map byteHex).flatten)

/-- UTF-8 bytes of one character, matching Python `str.encode()`. -/
def utf8Bytes (c : Char) : List ℕ :=
  let n := c.toNat
  if n < 0x80 then [n]
  else if n < 0x800 then [0xc0 ||| (n >>> 6), 0x80 ||| (n &&& 63)]
  else if n < 0x10000 then
    [0xe0 ||| (n >>> 12), 0x80 ||| ((n >>> 6) &&& 63), 0x80 ||| (n &&& 63)]
  else
    [0xf0 ||| (n >>> 18), 0x80 ||| ((n >>> 12) &&& 63),
     0x80 ||| ((n >>> 6) &&& 63), 0x80 ||| (n &&& 63)]

/-- Python `s.encode()` (UTF-8) of a string. -/
def strBytes (s : String) : List ℕ := s.data.flatMap utf8Bytes

/-! ## core/utils.py - cache_key, cached_summary, store_snapshot

The on-disk stores are modelled as association lists from file path to
file content; a freshly written binding is consed on and lookups take the
first binding, which is overwrite semantics.  A result-cache file is the
JSON object written by `cached_summary`, carrying a summary string or -
for a file some other writer left behind - no `summary` key at all, which
the reader treats as a miss. -/

/-- Lookup of a path in an association-list file store. -/
def fsGet {α : Type} (fs : List (String × α)) (p : String) : Option α :=
  (fs.find? (fun q => q.1 = p)).map (·.2)

/-- Write (create or overwrite) of a path in an association-list store. -/
def fsPut {α : Type} (fs : List (String × α)) (p : String) (v : α) : List (String × α) :=
  (p, v) :: fs

/-- Embedding of `cache_key`: the identifier is the app name and the
concatenated texts (just the concatenated texts when the app name is
absent or empty, Python truthiness), and the path is built from its MD5
hex digest.  The `os.makedirs` side effect has no bearing on the returned
key and is omitted. -/
def cache_key (texts : List String) (appName : Option String) : String :=
  let joined := String.join texts
  let identifier :=
    match appName with
    | some a => if a = "" then joined else a ++ "_" ++ joined
    | none => joined
  "data/summaries/" ++ md5Hex (strBytes identifier) ++ ".json"

/-- The result cache on disk: path to optional summary field. -/
abbrev CacheStore : Type := List (String × Option String)

/-- Generation-and-write tail of `cached_summary`: run the summarizer,
raise on an empty result (Python truthiness check plus re-raise), else
cache and return the summary. -/
def generateAndCache (fs : CacheStore) (path : String)
    (texts : List String) (summarizerFunc : List String → Except String String) :
    Except String (String × CacheStore) :=
  match summarizerFunc texts with
  | Except.error e => Except.error e
  | Except.ok s =>
    if s = "" then Except.error "Summarizer function returned empty result"
    else Except.ok (s, fsPut fs path (some s))

/-- The `cache_params` string of `cached_summary`: the app name and the
sorted-key JSON dump of the keyword arguments joined by an underscore, or
the JSON dump alone when the app name is absent or empty (Python
truthiness). -/
def cacheParams (appName : Option String) (kwargsJson : String) : String :=
  match appName with
  | some a => if a = "" then kwargsJson else a ++ "_" ++ kwargsJson
  | none => kwargsJson

/-- Embedding of `cached_summary`.  The discriminator `kwargsJson` stands
for `json.dumps(kwargs, sort_keys=True)`, a deterministic serialization of
the caller-supplied generation parameters.  A cache file with a summary
field short-circuits the summarizer; a missing file, or a file without the
field, leads to generation and a write. -/
def cached_summary (fs : CacheStore) (texts : List String)
    (summarizerFunc : List String → Except String String)
    (appName : Option String) (kwargsJson : String) :
    Except String (String × CacheStore) :=
  if texts = [] then Except.ok ("No reviews available for summary.", fs)
  else
    match fsGet fs (cache_key texts (some (cacheParams appName kwargsJson))) with
    | some (some s) => Except.ok (s, fs)
    | some none =>
      generateAndCache fs (cache_key texts (some (cacheParams appName kwargsJson)))
        texts summarizerFunc
    | none =>
      generateAndCache fs (cache_key texts (some (cacheParams appName kwargsJson)))
        texts summarizerFunc

/-- A snapshot file as `store_snapshot` reads and writes it; `reviews` is
`none` for a pre-existing file that lacks the `reviews` key. -/
structure SnapFile (α : Type) where
  app_name : String
  reviews : Option (List α)
  review_count : ℕ
  timestamp : String
  requested_count : ℕ
  deriving DecidableEq, Repr

/-- The snapshot object `store_snapshot` writes for a review list. -/
def snapshotOf {α : Type} (appName : String) (reviews : List α)
    (requestedCount : ℕ) (timestamp : String) : SnapFile α :=
  ⟨appName, some reviews, reviews.length, timestamp, requestedCount⟩

/-- Embedding of `store_snapshot`.  The current day and the timestamp are
explicit parameters standing for `datetime.now()`.  An existing snapshot
for the same app and day is kept when it has at least as many reviews as
the new list, or at least as many as the requested count; otherwise the
new snapshot is written. -/
def store_snapshot {α : Type} (fs : List (String × SnapFile α)) (appName : String)
    (reviews : List α) (requestedCount : ℕ) (today timestamp : String) :
    List (String × SnapFile α) :=
  let path := "data/snapshots/" ++ appName ++ "_" ++ today ++ ".json"
  let newFile := snapshotOf appName reviews requestedCount timestamp
  match fsGet fs path with
  | some f =>
    match f.reviews with
    | some ex =>
      if reviews.length ≤ ex.length then fs
      else if requestedCount ≤ ex.length then fs
      else fsPut fs path newFile
    | none => fsPut fs path newFile
  | none => fsPut fs path newFile

/-! ## Helper lemmas -/

/-- Length-plus-separator budget of a processed list, exactly the quantity
`total_length` tracks in `summarize_themes`. -/
def totalOf (l : List (List Char)) : ℕ :=
  (l.map (fun t => t.length + 2)).sum

theorem totalOf_nil : totalOf [] = 0 := rfl

theorem totalOf_cons (t : List Char) (l : List (List Char)) :
    totalOf (t :: l) = (t.length + 2) + totalOf l := by
  simp [totalOf]

/-- The joined text is no longer than the separator-padded budget sum. -/
theorem length_intercalate_le (sep : List Char) (xs : List (List Char)) :
    (List.intercalate sep xs).length ≤ (xs.map (fun t => t.length + sep.length)).sum := by
  induction xs with
  | nil => simp [List.intercalate]
  | cons x tl ih =>
    cases tl with
    | nil => simp [List.intercalate]
    | cons y tl2 =>
      have hstep : List.intercalate sep (x :: y :: tl2) =
          x ++ sep ++ List.intercalate sep (y :: tl2) := by
        simp [List.intercalate, List.intersperse_cons_cons]
      rw [hstep]
      simp only [List.length_append, List.map_cons, List.sum_cons] at ih ⊢
      omega

/-- The builder loop keeps the running total within the budget. -/
theorem buildLoop_total_le (texts : List (List Char)) :
    ∀ total, total ≤ MAX_TOTAL_LENGTH →
      total + totalOf (buildLoop total texts) ≤ MAX_TOTAL_LENGTH := by
  induction texts with
  | nil => intro total h; simpa [buildLoop, totalOf_nil] using h
  | cons t ts ih =>
    intro total h
    rw [buildLoop]
    split
    · simpa [totalOf_nil] using h
    · rename_i hle
      rw [totalOf_cons]
      have h2 := ih (total + (truncateReview t).length + 2) (by omega)
      omega

/-- The builder keeps a truncated prefix and drops the whole remainder at
the first text whose padded length would push the running total past the
budget. -/
theorem buildLoop_stop (texts : List (List Char)) :
    ∀ total, ∃ k, buildLoop total texts = (texts.take k).map truncateReview ∧
      (k = texts.length ∨
        ∃ t, texts.get? k = some t ∧
          MAX_TOTAL_LENGTH <
            total + totalOf ((texts.take k).map truncateReview) +
              (truncateReview t).length + 2) := by
  induction texts with
  | nil =>
    intro total
    exact ⟨0, by simp [buildLoop], Or.inl rfl⟩
  | cons t ts ih =>
    intro total
    rw [buildLoop]
    split
    · rename_i hgt
      refine ⟨0, by simp, Or.inr ⟨t, rfl, ?_⟩⟩
      simpa [totalOf_nil] using hgt
    · rename_i hle
      obtain ⟨k, hk, hrest⟩ := ih (total + (truncateReview t).length + 2)
      refine ⟨k + 1, ?_, ?_⟩
      · simp [List.take_succ_cons, hk]
      · rcases hrest with h | ⟨u, hu, hlt⟩
        · exact Or.inl (by simp [h])
        · refine Or.inr ⟨u, by simpa using hu, ?_⟩
          rw [List.take_succ_cons, List.map_cons, totalOf_cons]
          omega

/-! ## Claim C4 -/

/-- C4: the narrative input builder concatenates the (per-text truncated)
texts in original order with a blank-line separator; it stops at the first
text whose padded length would push the running total over 20000, dropping
that text and every later one whole; and the built output never exceeds
20000 characters. -/
theorem builder_budget_ceiling (texts : List (List Char)) :
    (combinedText texts).length ≤ MAX_TOTAL_LENGTH ∧
    (∃ k, processedTexts texts = (texts.take k).map truncateReview ∧
      (k = texts.length ∨
        ∃ t, texts.get? k = some t ∧
          MAX_TOTAL_LENGTH <
            totalOf ((texts.take k).map truncateReview) + (truncateReview t).length + 2)) := by
  constructor
  · have h1 := buildLoop_total_le texts 0 (by simp [MAX_TOTAL_LENGTH])
    have h2 := length_intercalate_le "\n\n".data (buildLoop 0 texts)
    have h3 : ((buildLoop 0 texts).map (fun t => t.length + ("\n\n".data).length)).sum =
        totalOf (buildLoop 0 texts) := rfl
    rw [h3] at h2
    have h4 : (combinedText texts).length =
        (List.intercalate "\n\n".data (buildLoop 0 texts)).length := rfl
    omega
  · obtain ⟨k, hk, hrest⟩ := buildLoop_stop texts 0
    refine ⟨k, by simpa [processedTexts] using hk, ?_⟩
    rcases hrest with h | ⟨t, ht, hlt⟩
    · exact Or.inl h
    · exact Or.inr ⟨t, ht, by omega⟩

/-! ## Claim C5 -/

/-- C5: every input text longer than 1000 characters becomes exactly its
first 1000 characters followed by the ellipsis marker (1003 characters in
all), and every text of length at most 1000 passes through unchanged. -/
theorem per_text_truncation (t : List Char) :
    (MAX_REVIEW_LENGTH < t.length →
      truncateReview t = t.take 1000 ++ "...".data ∧
      (truncateReview t).length = 1003) ∧
    (t.length ≤ MAX_REVIEW_LENGTH → truncateReview t = t) := by
  constructor
  · intro h
    have he : truncateReview t = t.take 1000 ++ "...".data := by
      rw [truncateReview, if_pos h, MAX_REVIEW_LENGTH]
    refine ⟨he, ?_⟩
    rw [he]
    rw [List.length_append, List.length_take]
    have h2 : MAX_REVIEW_LENGTH < t.length := h
    rw [MAX_REVIEW_LENGTH] at h2
    have h3 : ("...".data).length = 3 := rfl
    omega
  · intro h
    rw [truncateReview, if_neg (by omega)]

/-- Witness for C5 at a concrete text of length 1500: the output is the
first 1000 characters followed by the ellipsis marker. -/
theorem per_text_truncation_witness :
    MAX_REVIEW_LENGTH < (List.replicate 1500 'a').length ∧
    truncateReview (List.replicate 1500 'a') =
      List.replicate 1000 'a' ++ "...".data ∧
    (truncateReview (List.replicate 1500 'a')).length = 1003 := by
  have h : MAX_REVIEW_LENGTH < (List.replicate 1500 'a').length := by
    rw [List.length_replicate, MAX_REVIEW_LENGTH]
    omega
  have h2 := (per_text_truncation (List.replicate 1500 'a')).1 h
  refine ⟨h, ?_, h2.2⟩
  rw [h2.1, List.take_replicate]
  norm_num

/-! ## Claim C9 -/

/-- A keyword-count score over a nonempty keyword list lies in [0, 1]. -/
theorem themeScore_bounds (keywords : List String) (t : List Char)
    (h : keywords ≠ []) : 0 ≤ themeScore keywords t ∧ themeScore keywords t ≤ 1 := by
  have hlen : 0 < keywords.length := List.length_pos.mpr h
  have hlenQ : 0 < (keywords.length : ℚ) := by exact_mod_cast hlen
  simp only [themeScore]
  constructor
  · exact div_nonneg (by positivity) (le_of_lt hlenQ)
  · rw [div_le_one hlenQ]
    exact_mod_cast List.countP_le_length _

/-- C9: every per-text theme map returned by `tag_reviews_by_theme`
assigns to each of the six fixed themes a score in the closed interval
[0, 1]. -/
theorem theme_scores_in_unit_interval (texts : List (List Char))
    (m : List (String × ℚ)) (hm : m ∈ tag_reviews_by_theme texts) :
    ∀ th, th ∈ themeNames → ∃ s, (th, s) ∈ m ∧ 0 ≤ s ∧ s ≤ 1 := by
  obtain ⟨t, _, rfl⟩ := List.mem_map.mp hm
  intro th hth
  have hne : ∀ p ∈ themesTable, p.2 ≠ [] := by decide
  have hnames : themeNames = themesTable.map (·.1) := rfl
  rw [hnames] at hth
  obtain ⟨p, hp, hp1⟩ := List.mem_map.mp hth
  refine ⟨themeScore p.2 t, List.mem_map.mpr ⟨p, hp, by rw [hp1]⟩,
    (themeScore_bounds p.2 t (hne p hp)).1, (themeScore_bounds p.2 t (hne p hp)).2⟩

/-- Witness for C9 on the concrete corpus `["lag"]` and the theme
`Performance`. -/
theorem theme_scores_in_unit_interval_witness :
    ∃ s, ("Performance", s) ∈ (tag_reviews_by_theme ["lag".data]).headD [] ∧
      0 ≤ s ∧ s ≤ 1 :=
  theme_scores_in_unit_interval ["lag".data] _
    (List.mem_singleton.mpr rfl) "Performance" (by simp [themeNames])

/-! ## Claim C7 (corrected) -/

/-- A failing text-generation collaborator, for the C7 counterexample. -/
def genFail : String → String → ℕ → ℚ → Except String String :=
  fun _ _ _ _ => Except.error "APIConnectionError: request timed out"

/-- A concrete period payload for the C7 counterexample. -/
def pdA : PeriodData :=
  ⟨[("average_sentiment", 1/5), ("review_count", 10)], [("great app", 1/2)], [("UX", 1/4)]⟩

/-- A second concrete period payload for the C7 counterexample. -/
def pdB : PeriodData :=
  ⟨[("average_sentiment", -1/10), ("review_count", 15)], [("great app", 1/4)], [("UX", 3/4)]⟩

/-- Counterexample to C7: when the text-generation collaborator fails,
`analyze_period_changes` does not propagate the failure (as a
`NarrativeGenerationError` or anything else - no such exception type
exists in the code); its catch-all handler returns a locally fabricated
summary string built from the exception text. -/
theorem analyze_period_changes_counterexample :
    analyze_period_changes genFail pdA pdB "First Period" "Second Period" 2500 =
      Except.ok "Error generating period comparison analysis: APIConnectionError: request timed out" :=
  rfl

/-- C7 as amended: `analyze_period_changes` always returns normally - a
collaborator failure is caught by its catch-all handler and converted into
the returned string `"Error generating period comparison analysis: "`
followed by the exception text, never propagated to the caller. -/
theorem analyze_period_changes_catches :
    (∀ gen p1 p2 n1 n2 mt, ∃ s,
      analyze_period_changes gen p1 p2 n1 n2 mt = Except.ok s) ∧
    (∀ (gen : String → String → ℕ → ℚ → Except String String) p1 p2 n1 n2 mt e,
      gen periodChangesRole (periodChangesPrompt p1 p2 n1 n2) mt (7/10) = Except.error e →
      analyze_period_changes gen p1 p2 n1 n2 mt =
        Except.ok ("Error generating period comparison analysis: " ++ e)) := by
  constructor
  · intro gen p1 p2 n1 n2 mt
    rw [analyze_period_changes]
    cases gen periodChangesRole (periodChangesPrompt p1 p2 n1 n2) mt (7/10) with
    | ok s => exact ⟨s, rfl⟩
    | error e => exact ⟨_, rfl⟩
  · intro gen p1 p2 n1 n2 mt e he
    rw [analyze_period_changes, he]

/-- Witness for the amended C7 at the concrete failing collaborator. -/
theorem analyze_period_changes_catches_witness :
    genFail periodChangesRole (periodChangesPrompt pdA pdB "First Period" "Second Period")
        2500 (7/10) = Except.error "APIConnectionError: request timed out" ∧
    analyze_period_changes genFail pdA pdB "First Period" "Second Period" 2500 =
      Except.ok ("Error generating period comparison analysis: " ++
        "APIConnectionError: request timed out") :=
  ⟨rfl, analyze_period_changes_catches.2 genFail pdA pdB "First Period" "Second Period"
    2500 "APIConnectionError: request timed out" rfl⟩

/-! ## Claim C10 -/

/-- C10: when a snapshot file for the same app and day exists and holds a
review list, `store_snapshot` leaves the store untouched whenever the
existing list is at least as long as the new one or at least as long as
the requested count, and otherwise overwrites the file with the new
snapshot object. -/
theorem snapshot_keep_or_overwrite {α : Type}
    (fs : List (String × SnapFile α)) (appName : String) (reviews : List α)
    (req : ℕ) (today ts : String) (f : SnapFile α) (ex : List α)
    (hf : fsGet fs ("data/snapshots/" ++ appName ++ "_" ++ today ++ ".json") = some f)
    (hr : f.reviews = some ex) :
    ((reviews.length ≤ ex.length ∨ req ≤ ex.length) →
      store_snapshot fs appName reviews req today ts = fs) ∧
    (ex.length < reviews.length → ex.length < req →
      fsGet (store_snapshot fs appName reviews req today ts)
          ("data/snapshots/" ++ appName ++ "_" ++ today ++ ".json") =
        some (snapshotOf appName reviews req ts)) := by
  constructor
  · intro hkeep
    simp only [store_snapshot, hf, hr]
    rcases le_or_lt reviews.length ex.length with h | h
    · rw [if_pos h]
    · rw [if_neg (by omega)]
      rcases hkeep with hk | hk
      · omega
      · rw [if_pos hk]
  · intro h1 h2
    simp only [store_snapshot, hf, hr]
    rw [if_neg (by omega), if_neg (by omega)]
    simp [fsPut, fsGet]

/-- Witness for C10: a store with one existing two-review snapshot keeps
it against a one-review update, and is overwritten by a three-review
update. -/
theorem snapshot_keep_or_overwrite_witness :
    store_snapshot [("data/snapshots/app_2024-01-01.json",
        (⟨"app", some [1, 2], 2, "t0", 2⟩ : SnapFile ℕ))]
      "app" [9] 1 "2024-01-01" "t1" =
      [("data/snapshots/app_2024-01-01.json", (⟨"app", some [1, 2], 2, "t0", 2⟩ : SnapFile ℕ))] ∧
    fsGet (store_snapshot [("data/snapshots/app_2024-01-01.json",
        (⟨"app", some [1, 2], 2, "t0", 2⟩ : SnapFile ℕ))]
      "app" [7, 8, 9] 3 "2024-01-01" "t1") "data/snapshots/app_2024-01-01.json" =
      some (snapshotOf "app" [7, 8, 9] 3 "t1") := by
  constructor
  · exact (snapshot_keep_or_overwrite _ "app" [9] 1 "2024-01-01" "t1"
      (⟨"app", some [1, 2], 2, "t0", 2⟩ : SnapFile ℕ) [1, 2] (by rfl) rfl).1
      (Or.inl (by decide))
  · exact (snapshot_keep_or_overwrite _ "app" [7, 8, 9] 3 "2024-01-01" "t1"
      (⟨"app", some [1, 2], 2, "t0", 2⟩ : SnapFile ℕ) [1, 2] (by rfl) rfl).2
      (by decide) (by decide)

/-! ## Claim C3 (corrected)

The code defines no `InsufficientDataError` (nor any custom exception
class) and `compare_versions` performs no emptiness check: on an empty
population the pandas sentiment mean silently becomes NaN in a local
value, and the call then fails because the sklearn topic extractor
raises on the empty text list (before the theme tagger, which would
also raise, is ever reached) - that upstream exception is what
propagates, unchanged. -/

/-- A topic extractor that, like the sklearn pipeline, raises on an empty
corpus and otherwise returns a topic list. -/
def exEmptyFails : List (List Char) → Except String (List (String × ℚ)) :=
  fun ts =>
    if ts = [] then
      Except.error "ValueError: empty vocabulary; perhaps the documents only contain stop words"
    else Except.ok [("great app", 1)]

/-- A concrete non-empty population for the C3 counterexample. -/
def rOk : Review := ⟨"ok".data, 1, 5⟩

/-- Counterexample to C3: on an empty population A, `compare_versions`
does not fail with an `InsufficientDataError` - it propagates the topic
extractor's own ValueError unchanged. -/
theorem compare_versions_empty_counterexample :
    compare_versions exEmptyFails [] [rOk] =
      Except.error "ValueError: empty vocabulary; perhaps the documents only contain stop words" ∧
    ("ValueError: empty vocabulary; perhaps the documents only contain stop words" : String) ≠
      "InsufficientDataError" := by
  refine ⟨rfl, by decide⟩

/-- C3 as amended: `compare_versions` raises no error of its own - every
failure is the topic extractor's failure on one of the two text lists,
propagated unchanged; in particular, when population A is empty (or when
A's extraction succeeds and population B is empty) and the extractor
fails on the empty corpus - as the sklearn vectorizer does - that failure
is the result of the whole call. -/
theorem compare_versions_empty_behaviour :
    (∀ (ex : List (List Char) → Except String (List (String × ℚ)))
        (v1 v2 : List Review) (e : String),
      compare_versions ex v1 v2 = Except.error e →
      ex (v1.map (·.text)) = Except.error e ∨ ex (v2.map (·.text)) = Except.error e) ∧
    (∀ (ex : List (List Char) → Except String (List (String × ℚ)))
        (v2 : List Review) (e : String),
      ex [] = Except.error e →
      compare_versions ex [] v2 = Except.error e) ∧
    (∀ (ex : List (List Char) → Except String (List (String × ℚ)))
        (v1 : List Review) (t1 : List (String × ℚ)) (e : String),
      ex (v1.map (·.text)) = Except.ok t1 →
      ex [] = Except.error e →
      compare_versions ex v1 [] = Except.error e) := by
  refine ⟨?_, ?_, ?_⟩
  · intro ex v1 v2 e hc
    rw [compare_versions] at hc
    cases h1 : ex (v1.map (·.text)) with
    | error e1 =>
      rw [h1] at hc
      cases hc
      exact Or.inl rfl
    | ok raw1 =>
      rw [h1] at hc
      cases h2 : ex (v2.map (·.text)) with
      | error e2 =>
        rw [h2] at hc
        cases hc
        exact Or.inr rfl
      | ok raw2 =>
        rw [h2] at hc
        cases hc
  · intro ex v2 e h
    rw [compare_versions]
    simp only [List.map_nil, h]
  · intro ex v1 t1 e hx1 h
    rw [compare_versions, hx1]
    simp only [List.map_nil, h]

/-- Witness for the amended C3 at the concrete failing extractor: the
extractor's ValueError on the empty corpus is exactly the error of the
whole comparison call. -/
theorem compare_versions_empty_behaviour_witness :
    (exEmptyFails (([] : List Review).map (·.text)) =
        Except.error "ValueError: empty vocabulary; perhaps the documents only contain stop words" ∨
      exEmptyFails ([rOk].map (·.text)) =
        Except.error "ValueError: empty vocabulary; perhaps the documents only contain stop words") ∧
    compare_versions exEmptyFails [] [rOk] =
      Except.error "ValueError: empty vocabulary; perhaps the documents only contain stop words" :=
  ⟨compare_versions_empty_behaviour.1 exEmptyFails [] [rOk]
    "ValueError: empty vocabulary; perhaps the documents only contain stop words" rfl,
   compare_versions_empty_behaviour.2.1 exEmptyFails [rOk]
    "ValueError: empty vocabulary; perhaps the documents only contain stop words" rfl⟩

/-! ## Claim C6 -/

/-- Searching with the never-matching matcher finds nothing. -/
theorem reSearch_noMatch (s : List Char) : reSearch noMatch s = none := by
  induction s with
  | nil => rfl
  | cons c rest ih => simpa [reSearch, noMatch] using ih

/-- C6: version extraction tries the four patterns in priority order on
the lowercased text - if every pattern before index `i` finds no match
anywhere and pattern `i` matches with capture `v`, the result is `v`; if
no pattern matches the result is `none`; and a review with no extracted
version lies in no group of `group_reviews_by_version`, while a review
with extracted version `v` lies in the group keyed `v`. -/
theorem version_pattern_priority :
    (∀ (t : List Char) (i : ℕ) (v : List Char),
      (∀ j, j < i → reSearch (versionPatterns.getD j noMatch) (lowerChars t) = none) →
      reSearch (versionPatterns.getD i noMatch) (lowerChars t) = some v →
      extract_version_from_review t = some v) ∧
    (∀ t : List Char,
      (∀ i, reSearch (versionPatterns.getD i noMatch) (lowerChars t) = none) →
      extract_version_from_review t = none) ∧
    (∀ (rs : List Review) (r : Review),
      extract_version_from_review r.text = none →
      ∀ v g, (v, g) ∈ group_reviews_by_version rs → r ∉ g) ∧
    (∀ (rs : List Review) (r : Review), r ∈ rs →
      ∀ v, extract_version_from_review r.text = some v →
      ∃ g, (v, g) ∈ group_reviews_by_version rs ∧ r ∈ g) := by
  refine ⟨?_, ?_, ?_, ?_⟩
  · intro t i v hj hi
    rcases i with _ | _ | _ | _ | n
    · have h0 : reSearch matchVersionAt (lowerChars t) = some v := hi
      simp [extract_version_from_review, h0]
    · have h0 : reSearch matchVersionAt (lowerChars t) = none := hj 0 (by omega)
      have h1 : reSearch matchVAt (lowerChars t) = some v := hi
      simp [extract_version_from_review, h0, h1]
    · have h0 : reSearch matchVersionAt (lowerChars t) = none := hj 0 (by omega)
      have h1 : reSearch matchVAt (lowerChars t) = none := hj 1 (by omega)
      have h2 : reSearch matchNumVersionAt (lowerChars t) = some v := hi
      simp [extract_version_from_review, h0, h1, h2]
    · have h0 : reSearch matchVersionAt (lowerChars t) = none := hj 0 (by omega)
      have h1 : reSearch matchVAt (lowerChars t) = none := hj 1 (by omega)
      have h2 : reSearch matchNumVersionAt (lowerChars t) = none := hj 2 (by omega)
      have h3 : reSearch matchUpdateAt (lowerChars t) = some v := hi
      simp [extract_version_from_review, h0, h1, h2, h3]
    · have hd : versionPatterns.getD (n + 4) noMatch = noMatch := rfl
      rw [hd, reSearch_noMatch] at hi
      cases hi
  · intro t h
    have h0 : reSearch matchVersionAt (lowerChars t) = none := h 0
    have h1 : reSearch matchVAt (lowerChars t) = none := h 1
    have h2 : reSearch matchNumVersionAt (lowerChars t) = none := h 2
    have h3 : reSearch matchUpdateAt (lowerChars t) = none := h 3
    simp [extract_version_from_review, h0, h1, h2, h3]
  · intro rs r hnone v g hg
    simp only [group_reviews_by_version, List.mem_map] at hg
    obtain ⟨a, _, ha⟩ := hg
    obtain ⟨rfl, rfl⟩ := Prod.mk.injEq .. ▸ And.intro (congrArg Prod.fst ha) (congrArg Prod.snd ha)
    intro hr
    have := (List.mem_filter.mp hr).2
    rw [hnone] at this
    simp at this
  · intro rs r hr v hv
    refine ⟨rs.filter (fun r2 => extract_version_from_review r2.text == some v), ?_, ?_⟩
    · simp only [group_reviews_by_version, List.mem_map]
      refine ⟨v, ?_, rfl⟩
      rw [List.mem_dedup]
      exact List.mem_filterMap.mpr ⟨r, hr, hv⟩
    · exact List.mem_filter.mpr ⟨hr, by simp [hv]⟩

/-- Witness for C6: on the review text `"v1.0 rocks"` the first pattern
finds nothing, the second captures `1.0`, extraction returns `1.0`, and
the review lands in the `1.0` group. -/
theorem version_pattern_priority_witness :
    reSearch (versionPatterns.getD 0 noMatch) (lowerChars "v1.0 rocks".data) = none ∧
    reSearch (versionPatterns.getD 1 noMatch) (lowerChars "v1.0 rocks".data) =
      some "1.0".data ∧
    extract_version_from_review "v1.0 rocks".data = some "1.0".data ∧
    (∃ g, ("1.0".data, g) ∈ group_reviews_by_version [⟨"v1.0 rocks".data, 1, 5⟩] ∧
      (⟨"v1.0 rocks".data, 1, 5⟩ : Review) ∈ g) := by
  have hstep : extract_version_from_review "v1.0 rocks".data = some "1.0".data :=
    version_pattern_priority.1 "v1.0 rocks".data 1 "1.0".data
      (fun j hj => by
        rcases j with _ | j
        · exact rfl
        · exact absurd hj (by omega))
      rfl
  refine ⟨rfl, rfl, hstep, ?_⟩
  exact version_pattern_priority.2.2.2 [⟨"v1.0 rocks".data, 1, 5⟩]
    ⟨"v1.0 rocks".data, 1, 5⟩ (List.mem_singleton.mpr rfl) "1.0".data hstep

/-! ## Claim C1 -/

/-- A constant topic extractor for the C1 witness. -/
def exConst : List (List Char) → Except String (List (String × ℚ)) :=
  fun _ => Except.ok [("great app", 1/2)]

/-- C1: on non-empty populations, every delta in the payload of
`compare_versions` is the version2 (B) value minus the version1 (A) value:
the sentiment entry, the review_count and average_rating metric entries,
every topic entry and every theme entry. -/
theorem comparison_deltas
    (ex : List (List Char) → Except String (List (String × ℚ)))
    (v1 v2 : List Review) (c : Comparison)
    (h1 : v1 ≠ []) (h2 : v2 ≠ [])
    (hc : compare_versions ex v1 v2 = Except.ok c) :
    (∃ a b, c.sentiment = Entry.mk (some a) (some b) (some (b - a))) ∧
    c.review_count.delta = c.review_count.version2 - c.review_count.version1 ∧
    (∃ a b, c.average_rating = Entry.mk (some a) (some b) (some (b - a))) ∧
    (∀ t e, (t, e) ∈ c.topics → e.delta = e.version2 - e.version1) ∧
    (∀ th e, (th, e) ∈ c.themes → e.delta = e.version2 - e.version1) := by
  rw [compare_versions] at hc
  cases hx1 : ex (v1.map (·.text)) with
  | error e => rw [hx1] at hc; cases hc
  | ok raw1 =>
    rw [hx1] at hc
    cases hx2 : ex (v2.map (·.text)) with
    | error e => rw [hx2] at hc; cases hc
    | ok raw2 =>
      rw [hx2] at hc
      cases hc
      refine ⟨?_, rfl, ?_, ?_, ?_⟩
      · have hm1 : v1.map (·.sentiment) ≠ [] := by simpa using h1
        have hm2 : v2.map (·.sentiment) ≠ [] := by simpa using h2
        refine ⟨(v1.map (·.sentiment)).sum / ((v1.map (·.sentiment)).length : ℚ),
          (v2.map (·.sentiment)).sum / ((v2.map (·.sentiment)).length : ℚ), ?_⟩
        simp [pmean, hm1, hm2, omSub]
      · have hm1 : v1.map (·.rating) ≠ [] := by simpa using h1
        have hm2 : v2.map (·.rating) ≠ [] := by simpa using h2
        refine ⟨(v1.map (·.rating)).sum / ((v1.map (·.rating)).length : ℚ),
          (v2.map (·.rating)).sum / ((v2.map (·.rating)).length : ℚ), ?_⟩
        simp [pmean, hm1, hm2, omSub]
      · intro t e ht
        obtain ⟨a, _, heq⟩ := List.mem_map.mp ht
        cases heq
        rfl
      · intro th e ht
        obtain ⟨p, _, heq⟩ := List.mem_map.mp ht
        cases heq
        rfl

/-- Witness for C1 at one-review populations and a constant extractor. -/
theorem comparison_deltas_witness :
    ∃ c, compare_versions exConst [⟨"aa".data, 1/2, 5⟩] [⟨"bb".data, 1/4, 4⟩] =
        Except.ok c ∧
      ((∃ a b, c.sentiment = Entry.mk (some a) (some b) (some (b - a))) ∧
        c.review_count.delta = c.review_count.version2 - c.review_count.version1 ∧
        (∃ a b, c.average_rating = Entry.mk (some a) (some b) (some (b - a))) ∧
        (∀ t e, (t, e) ∈ c.topics → e.delta = e.version2 - e.version1) ∧
        (∀ th e, (th, e) ∈ c.themes → e.delta = e.version2 - e.version1)) := by
  refine ⟨_, rfl, comparison_deltas exConst _ _ _ (by simp) (by simp) rfl⟩

/-! ## Claim C2 -/

/-- A dict lookup misses exactly when the key is outside the key view. -/
theorem pyGet_none_iff (l : List (String × ℚ)) (k : String) :
    pyGet l k = none ↔ k ∉ pyKeys l := by
  rw [pyGet, Option.map_eq_none', List.find?_eq_none]
  simp only [List.mem_reverse, decide_eq_true_eq, pyKeys, List.mem_dedup, List.mem_map]
  constructor
  · rintro h ⟨p, hp, hpk⟩
    exact h p hp hpk
  · intro h p hp hpk
    exact h ⟨p, hp, hpk⟩

/-- Membership in the modelled Python set union of two dicts' key sets. -/
theorem mem_keyUnion (l1 l2 : List (String × ℚ)) (k : String) :
    k ∈ keyUnion l1 l2 ↔ k ∈ pyKeys l1 ∨ k ∈ pyKeys l2 := by
  simp [keyUnion, List.mem_dedup]

/-- First components of the per-theme averages: the fixed theme list. -/
theorem themeAvgs_keys (x : List (List (String × ℚ))) :
    (themeAvgs x).map (·.1) = themeNames := by
  rw [themeAvgs, List.map_map]
  show themeNames.map (fun th => th) = themeNames
  simp

/-- The key view of the per-theme averages is the fixed theme list. -/
theorem pyKeys_themeAvgs (x : List (List (String × ℚ))) :
    pyKeys (themeAvgs x) = themeNames := by
  rw [pyKeys, themeAvgs_keys]
  exact List.dedup_eq_self.mpr (by decide)

/-- C2: the topic map of a `compare_versions` payload is keyed by exactly
the union of the key sets of the two extractor runs, with a key present in
only one run getting 0 on the other side; and the theme map is keyed by
exactly the union of the key sets of the two theme-average runs (each the
fixed six themes). -/
theorem comparison_key_union
    (ex : List (List Char) → Except String (List (String × ℚ)))
    (v1 v2 : List Review) (c : Comparison) (t1 t2 : List (String × ℚ))
    (hx1 : ex (v1.map (·.text)) = Except.ok t1)
    (hx2 : ex (v2.map (·.text)) = Except.ok t2)
    (hc : compare_versions ex v1 v2 = Except.ok c) :
    (∀ k, (∃ e, (k, e) ∈ c.topics) ↔ (k ∈ pyKeys t1 ∨ k ∈ pyKeys t2)) ∧
    (∀ k e, (k, e) ∈ c.topics → k ∉ pyKeys t1 → e.version1 = 0) ∧
    (∀ k e, (k, e) ∈ c.topics → k ∉ pyKeys t2 → e.version2 = 0) ∧
    (∀ k, (∃ e, (k, e) ∈ c.themes) ↔
      (k ∈ pyKeys (themeAvgs (tag_reviews_by_theme (v1.map (·.text)))) ∨
       k ∈ pyKeys (themeAvgs (tag_reviews_by_theme (v2.map (·.text)))))) := by
  rw [compare_versions, hx1, hx2] at hc
  cases hc
  refine ⟨?_, ?_, ?_, ?_⟩
  · intro k
    constructor
    · rintro ⟨e, he⟩
      obtain ⟨a, ha, heq⟩ := List.mem_map.mp he
      injection heq with hfst _
      subst hfst
      exact (mem_keyUnion t1 t2 a).mp ha
    · intro hk
      exact ⟨_, List.mem_map.mpr ⟨k, (mem_keyUnion t1 t2 k).mpr hk, rfl⟩⟩
  · intro k e he hk
    obtain ⟨a, _, heq⟩ := List.mem_map.mp he
    injection heq with hfst hsnd
    subst hfst
    subst hsnd
    simp [pyGetD, (pyGet_none_iff t1 a).mpr hk]
  · intro k e he hk
    obtain ⟨a, _, heq⟩ := List.mem_map.mp he
    injection heq with hfst hsnd
    subst hfst
    subst hsnd
    simp [pyGetD, (pyGet_none_iff t2 a).mpr hk]
  · intro k
    rw [pyKeys_themeAvgs, pyKeys_themeAvgs]
    constructor
    · rintro ⟨e, he⟩
      obtain ⟨p, hp, heq⟩ := List.mem_map.mp he
      injection heq with hfst _
      subst hfst
      have hmem : p.1 ∈ (themeAvgs (tag_reviews_by_theme (v1.map (·.text)))).map (·.1) :=
        List.mem_map.mpr ⟨p, hp, rfl⟩
      rw [themeAvgs_keys] at hmem
      exact Or.inl hmem
    · intro hk
      have hk1 : k ∈ themeNames := hk.elim id id
      have hmem : k ∈ (themeAvgs (tag_reviews_by_theme (v1.map (·.text)))).map (·.1) := by
        rw [themeAvgs_keys]
        exact hk1
      obtain ⟨p, hp, hpk⟩ := List.mem_map.mp hmem
      exact ⟨_, List.mem_map.mpr ⟨p, hp, by rw [hpk]⟩⟩

/-- A two-valued topic extractor for the C2 witness: it reports the topic
`alpha` for a one-document corpus and `beta` otherwise, so the two runs
discover different keys. -/
def exTwo : List (List Char) → Except String (List (String × ℚ)) :=
  fun ts => if ts.length = 1 then Except.ok [("alpha", 1/2)] else Except.ok [("beta", 1/3)]

/-- Witness for C2: with runs discovering `alpha` and `beta` respectively,
both keys appear in the topic map even though each exists in one run only. -/
theorem comparison_key_union_witness :
    ∃ c, compare_versions exTwo [⟨"aa".data, 1/2, 5⟩]
        [⟨"bb".data, 1/4, 4⟩, ⟨"cc".data, 0, 3⟩] = Except.ok c ∧
      (∃ e, ("alpha", e) ∈ c.topics) ∧ (∃ e, ("beta", e) ∈ c.topics) ∧
      (∃ e, ("UX", e) ∈ c.themes) := by
  refine ⟨_, rfl, ?_, ?_, ?_⟩
  · exact ((comparison_key_union exTwo [⟨"aa".data, 1/2, 5⟩]
      [⟨"bb".data, 1/4, 4⟩, ⟨"cc".data, 0, 3⟩] _ [("alpha", 1/2)] [("beta", 1/3)]
      rfl rfl rfl).1 "alpha").mpr (Or.inl (by decide))
  · exact ((comparison_key_union exTwo [⟨"aa".data, 1/2, 5⟩]
      [⟨"bb".data, 1/4, 4⟩, ⟨"cc".data, 0, 3⟩] _ [("alpha", 1/2)] [("beta", 1/3)]
      rfl rfl rfl).1 "beta").mpr (Or.inr (by decide))
  · exact ((comparison_key_union exTwo [⟨"aa".data, 1/2, 5⟩]
      [⟨"bb".data, 1/4, 4⟩, ⟨"cc".data, 0, 3⟩] _ [("alpha", 1/2)] [("beta", 1/3)]
      rfl rfl rfl).2.2.2 "UX").mpr (Or.inl (by rw [pyKeys_themeAvgs]; decide))

/-! ## Claim C8 -/

/-- C8: the result cache round-trips.  The fingerprint is a pure function
of the ordered texts and the discriminator (app name plus serialized
generation parameters), so it is deterministic and survives a process
restart; after any successful call stores a summary under it, a later
call with the same ordered texts and the same discriminator recomputes
the same fingerprint and returns the stored string with the store
untouched, for an arbitrary second summarizer - which is therefore never
invoked. -/
theorem cache_round_trip (fs : CacheStore) (texts : List String)
    (g1 g2 : List String → Except String String)
    (appName : Option String) (kw : String) (s : String) (fs2 : CacheStore)
    (ht : texts ≠ [])
    (h1 : cached_summary fs texts g1 appName kw = Except.ok (s, fs2)) :
    cached_summary fs2 texts g2 appName kw = Except.ok (s, fs2) := by
  rw [cached_summary, if_neg ht] at h1
  rw [cached_summary, if_neg ht]
  cases hg : fsGet fs (cache_key texts (some (cacheParams appName kw))) with
  | some o =>
    cases o with
    | some s0 =>
      simp only [hg] at h1
      injection h1 with h2
      injection h2 with hs hfs
      subst hs
      subst hfs
      simp only [hg]
    | none =>
      cases hs1 : g1 texts with
      | error e =>
        simp only [hg, generateAndCache, hs1] at h1
        cases h1
      | ok s1 =>
        by_cases hemp : s1 = ""
        · simp only [hg, generateAndCache, hs1, if_pos hemp] at h1
          cases h1
        · simp only [hg, generateAndCache, hs1, if_neg hemp] at h1
          injection h1 with h2
          injection h2 with hs hfs
          subst hs
          subst hfs
          have hget : fsGet (fsPut fs (cache_key texts (some (cacheParams appName kw)))
              (some s1)) (cache_key texts (some (cacheParams appName kw))) = some (some s1) := by
            simp [fsGet, fsPut]
          simp only [hget]
  | none =>
    cases hs1 : g1 texts with
    | error e =>
      simp only [hg, generateAndCache, hs1] at h1
      cases h1
    | ok s1 =>
      by_cases hemp : s1 = ""
      · simp only [hg, generateAndCache, hs1, if_pos hemp] at h1
        cases h1
      · simp only [hg, generateAndCache, hs1, if_neg hemp] at h1
        injection h1 with h2
        injection h2 with hs hfs
        subst hs
        subst hfs
        have hget : fsGet (fsPut fs (cache_key texts (some (cacheParams appName kw)))
            (some s1)) (cache_key texts (some (cacheParams appName kw))) = some (some s1) := by
          simp [fsGet, fsPut]
        simp only [hget]

/-- First summarizer for the C8 witness: returns `"X"`. -/
def g1W : List String → Except String String := fun _ => Except.ok "X"

/-- Second summarizer for the C8 witness: fails, so a successful second
call proves the cache answered without invoking it. -/
def g2W : List String → Except String String :=
  fun _ => Except.error "summarizer invoked again"

/-- Witness for C8 at concrete inputs: the first call stores `"X"` under
the MD5 fingerprint of `"MyApp_k1_great app"` and the second call - with a
failing summarizer - still returns `"X"` and leaves the store unchanged. -/
theorem cache_round_trip_witness :
    cached_summary [] ["great app"] g1W (some "MyApp") "k1" =
      Except.ok ("X",
        [("data/summaries/d6a970ce002173b693d5b5309bb1cdad.json", some "X")]) ∧
    cached_summary [("data/summaries/d6a970ce002173b693d5b5309bb1cdad.json", some "X")]
        ["great app"] g2W (some "MyApp") "k1" =
      Except.ok ("X",
        [("data/summaries/d6a970ce002173b693d5b5309bb1cdad.json", some "X")]) := by
  have h1 : cached_summary [] ["great app"] g1W (some "MyApp") "k1" =
      Except.ok ("X",
        [("data/summaries/d6a970ce002173b693d5b5309bb1cdad.json", some "X")]) := rfl
  exact ⟨h1, cache_round_trip [] ["great app"] g1W g2W (some "MyApp") "k1" "X"
    [("data/summaries/d6a970ce002173b693d5b5309bb1cdad.json", some "X")]
    (by decide) h1⟩

end AISentimentScanner
